import Mathlib

/-!
# Verification of the five9-enterprise-pipeline ingestion-and-resilience layer

Shallow embedding of the catalog listing (`src/services/sftp.service.ts`),
the retry executor (`src/utils/retry.ts`), the error taxonomy
(`src/utils/errors.ts`), the transcription entry point
(`src/services/transcription.service.ts`) and the per-run orchestration
(`src/pipeline/orchestrator.ts`), together with theorems checking the
specification's claims against these definitions.
-/

namespace Five9

/-! ## String and path helpers (JS / node built-ins used by the source) -/

/-- JS `String.prototype.endsWith`, over the character list. -/
def jsEndsWith (s suffix : String) : Bool :=
  suffix.toList.isSuffixOf s.toList

/-- JS `String.prototype.toLowerCase` (ASCII range, which is all the source
compares). -/
def lowerStr (s : String) : String :=
  String.mk (s.toList.map Char.toLower)

/-- `path.posix.join a b` for the slash-normalized arguments this code
produces (no `.`/`..` segments, `b` a plain entry name). -/
def pjoin (a b : String) : String :=
  if a = "" then b else if jsEndsWith a "/" then a ++ b else a ++ "/" ++ b

/-- `path.posix.extname` restricted to basenames (SFTP entry names contain no
slash): the suffix starting at the last dot, or `""` when there is no dot or
the only dot is the leading character (`.hidden`), with node's special case
for `".."`. -/
def extname (name : String) : String :=
  if name = ".." then ""
  else
    let cs := name.toList
    let tail := cs.reverse.takeWhile (fun c => c ≠ '.')
    if tail.length = cs.length then ""
    else if tail.length + 1 = cs.length then ""
    else String.mk ('.' :: tail.reverse)

/-- Whether `sub` occurs as a contiguous sublist of `s`. -/
def containsSubList (s sub : List Char) : Bool :=
  if sub.isPrefixOf s then true
  else
    match s with
    | [] => false
    | _ :: rest => containsSubList rest sub

/-- JS `String.prototype.includes`. -/
def jsIncludes (s sub : String) : Bool :=
  containsSubList s.toList sub.toList

/-- Replaces the first (leftmost) occurrence of `pat` in `s` by `rep`. -/
def replaceFirstList (s pat rep : List Char) : List Char :=
  if pat = [] then rep ++ s
  else if pat.isPrefixOf s then rep ++ s.drop pat.length
  else
    match s with
    | [] => []
    | c :: rest => c :: replaceFirstList rest pat rep

/-- JS `String.prototype.replace` with a plain-string pattern: replaces the
first occurrence only. -/
def jsReplaceFirst (s pat rep : String) : String :=
  String.mk (replaceFirstList s.toList pat.toList rep.toList)

/-- JS `filePath.replace(/\.[^/.]+$/, "")` as used in
`TranscriptionService.transcribe`: drops a final `.ext` in which the
extension is nonempty and contains neither a dot nor a slash. -/
def jsStripExt (s : String) : String :=
  let rcs := s.toList.reverse
  let t := rcs.takeWhile (fun c => ¬ (c = '.' ∨ c = '/'))
  if t ≠ [] ∧ (rcs.drop t.length).head? = some '.' then
    String.mk ((rcs.drop (t.length + 1)).reverse)
  else s

/-- `Number` applied to a nonempty digit string. -/
def digitsToNat (cs : List Char) : Nat :=
  cs.foldl (fun n c => n * 10 + (c.toNat - '0'.toNat)) 0

/-! ## JS `Date` values

`parseDateFolderName` returns `new Date(y, m - 1, d, 0, 0, 0, 0).getTime()`
and uses it only to order folders.  We embed the value in day units: the
civil-calendar day count with JS month/day normalization, which is
order-isomorphic to the local-midnight millisecond timestamp. -/

/-- Day count since 1970-01-01 of the civil date `y-m-d` (`m` 1-based),
Hinnant's `days_from_civil` with floor division so negative years work. -/
def daysFromCivil (y m d : Int) : Int :=
  let y2 := if m ≤ 2 then y - 1 else y
  let era := Int.fdiv y2 400
  let yoe := y2 - era * 400
  let mp := Int.emod (m + 9) 12
  let doy := Int.fdiv (153 * mp + 2) 5 + d - 1
  let doe := yoe * 365 + Int.fdiv yoe 4 - Int.fdiv yoe 100 + doy
  era * 146097 + doe - 719468

/-- `new Date(year, monthIndex, day).getTime()` in day units, including the
`Date` normalization of out-of-range month indices and days. -/
def jsDateDays (year monthIndex day : Int) : Int :=
  let ym := year * 12 + monthIndex
  daysFromCivil (Int.fdiv ym 12) (Int.emod ym 12 + 1) day

/-! ## `SftpService` catalog listing -/

/-- `FileInfo` as produced by `SftpService.listFilesRecursive`. -/
structure FileInfo where
  name : String
  size : Nat
  modifyTime : Nat
  remotePath : String
deriving DecidableEq, Repr

/-- One entry of the remote tree; `client.list(path)` of a directory returns
its children.  `other` stands for entries whose `type` is neither `'d'` nor
`'-'` (symlinks etc.). -/
inductive FSEntry where
  | file (name : String) (size : Nat) (modifyTime : Nat)
  | dir (name : String) (children : List FSEntry)
  | other (name : String)

/-- Splits `name` as `digits sep digits sep digits` (separators `-` or `_`,
whole string consumed), mirroring the two anchored regexes of
`parseDateFolderName`; maximal digit groups are equivalent to the regexes
because each group is followed by a non-digit (`[-_]` or the end). -/
def splitDateParts (name : String) : Option (List Char × List Char × List Char) :=
  let cs := name.toList
  let g1 := cs.takeWhile Char.isDigit
  match cs.drop g1.length with
  | s1 :: r1 =>
    if s1 = '-' ∨ s1 = '_' then
      let g2 := r1.takeWhile Char.isDigit
      match r1.drop g2.length with
      | s2 :: r2 =>
        if s2 = '-' ∨ s2 = '_' then
          let g3 := r2.takeWhile Char.isDigit
          if r2.drop g3.length = [] ∧ g1 ≠ [] ∧ g2 ≠ [] ∧ g3 ≠ [] then
            some (g1, g2, g3)
          else none
        else none
      | [] => none
    else none
  | [] => none

/-- `SftpService.parseDateFolderName`: `YYYY[-_]MM[-_]DD` is tried first,
then `MM[-_]DD[-_]YYYY`; the result is the `Date.getTime` value (in day
units, see `jsDateDays`). -/
def parseDateFolderName (name : String) : Option Int :=
  match splitDateParts name with
  | none => none
  | some (g1, g2, g3) =>
    if g1.length = 4 ∧ 1 ≤ g2.length ∧ g2.length ≤ 2 ∧ 1 ≤ g3.length ∧ g3.length ≤ 2 then
      some (jsDateDays (digitsToNat g1) ((digitsToNat g2 : Int) - 1) (digitsToNat g3))
    else if 1 ≤ g1.length ∧ g1.length ≤ 2 ∧ 1 ≤ g2.length ∧ g2.length ≤ 2 ∧ g3.length = 4 then
      some (jsDateDays (digitsToNat g3) ((digitsToNat g1 : Int) - 1) (digitsToNat g2))
    else none

/-- `Array.prototype.sort` (stable, Node ≥ 11) with comparator
`(a, b) => key(b) - key(a)`: a stable descending sort by `key`, embedded as
insertion sort, which is stable for the same order. -/
def sortDescBy (key : α → Int) (l : List α) : List α :=
  List.insertionSort (fun a b => key b ≤ key a) l

/-- The `files.length >= maxFiles` test; `none` is the
`Number.POSITIVE_INFINITY` default of `listFilesRecursive`. -/
def atCap (n : Nat) : Option Nat → Bool
  | none => false
  | some m => decide (m ≤ n)

mutual

/-- The body of the `for (const entry of entries)` loop of
`SftpService.listFilesRecursive` for one entry (after the cap check):
directories are walked recursively, regular files whose lower-cased
extension is `.wav` are appended to the shared accumulator, every other
entry type is skipped. -/
def walkEntry (remotePath : String) (e : FSEntry) (files : List FileInfo)
    (maxFiles : Option Nat) : List FileInfo :=
  match e with
  | .dir name children =>
    listFilesRecursive (pjoin remotePath name) children files maxFiles
  | .file name size modifyTime =>
    if lowerStr (extname name) = ".wav" then
      files ++ [⟨name, size, modifyTime, pjoin remotePath name⟩]
    else files
  | .other _ => files

/-- `SftpService.listFilesRecursive`: depth-first walk over the tree,
re-checking `files.length >= maxFiles` before every entry.  The children
list stands for `client.list(remotePath)`. -/
def listFilesRecursive (remotePath : String) (entries : List FSEntry)
    (files : List FileInfo) (maxFiles : Option Nat) : List FileInfo :=
  match entries with
  | [] => files
  | e :: rest =>
    if atCap files.length maxFiles then files
    else listFilesRecursive remotePath rest (walkEntry remotePath e files maxFiles) maxFiles

end

/-- A date folder as collected by `listDateFolders`; the subtree is carried
along in place of the later `client.list(folder.path)`. -/
structure DateFolder where
  path : String
  date : Int
  children : List FSEntry

/-- The inner loop of `listDateFolders` over one campaign directory. -/
def dateFoldersOfCampaign (campaignPath : String) (subEntries : List FSEntry) :
    List DateFolder :=
  subEntries.filterMap fun se =>
    match se with
    | .dir dname dchildren =>
      match parseDateFolderName dname with
      | some d => some ⟨pjoin campaignPath dname, d, dchildren⟩
      | none => none
    | _ => none

/-- `SftpService.listDateFolders`: second-level directories whose names parse
as dates, sorted descending by parsed date. -/
def listDateFolders (remotePath : String) (entries : List FSEntry) : List DateFolder :=
  let folders :=
    (entries.map fun e =>
      match e with
      | .dir name children => dateFoldersOfCampaign (pjoin remotePath name) children
      | _ => []).flatten
  sortDescBy (fun f => f.date) folders

/-- The date-folder loop of `listRecentFiles`:
`for (const folder of dateFolders) { if (collected.length >= maxFiles) break; ... }`. -/
def collectFromDateFolders (folders : List DateFolder) (collected : List FileInfo)
    (maxFiles : Nat) : List FileInfo :=
  match folders with
  | [] => collected
  | f :: rest =>
    if maxFiles ≤ collected.length then collected
    else
      collectFromDateFolders rest
        (listFilesRecursive f.path f.children collected (some maxFiles)) maxFiles

/-- `SftpService.listRecentFiles` over the shallow remote-tree model:
`entries` are the children of `basePath`. -/
def listRecentFiles (basePath : String) (entries : List FSEntry)
    (maxFiles : Nat) : List FileInfo :=
  if (listDateFolders basePath entries).length = 0 then
    (sortDescBy (fun f => (f.modifyTime : Int))
      (listFilesRecursive basePath entries [] none)).take maxFiles
  else
    (sortDescBy (fun f => (f.modifyTime : Int))
      (collectFromDateFolders (listDateFolders basePath entries) [] maxFiles)).take maxFiles

/-- `SftpService.RECENT_FILE_LIMIT`, the default cap of `listFiles`. -/
def RECENT_FILE_LIMIT : Nat := 10000

/-- `SftpService.listFiles` reduces to `listRecentFiles` at the requested
path and cap; the surrounding `retryWithBackoff`/`SftpError.listFailed`
wrapper does not change the returned sequence. -/
def listFiles (basePath : String) (entries : List FSEntry)
    (maxFiles : Nat := RECENT_FILE_LIMIT) : List FileInfo :=
  listRecentFiles basePath entries maxFiles



/-! ## Sortedness of the catalog output -/

theorem sortDescBy_sorted (key : α → Int) (l : List α) :
    (sortDescBy key l).Pairwise (fun a b => key b ≤ key a) := by
  haveI : IsTotal α (fun a b => key b ≤ key a) := ⟨fun a b => le_total (key b) (key a)⟩
  haveI : IsTrans α (fun a b => key b ≤ key a) :=
    ⟨fun _ _ _ hab hbc => le_trans hbc hab⟩
  exact List.sorted_insertionSort _ l

theorem take_sortDescBy_bounded_sorted (key : α → Int) (l : List α) (n : Nat) :
    ((sortDescBy key l).take n).length ≤ n ∧
    ((sortDescBy key l).take n).Pairwise (fun a b => key b ≤ key a) :=
  ⟨List.length_take_le n _,
   (sortDescBy_sorted key l).sublist (List.take_sublist _ _)⟩

/-- C1 (amended): for every base path, remote tree and `capCount ≥ 0`, the
catalog listing `listRecentFiles` (the core of `listFiles`) returns at most
`capCount` items, sorted by `modifyTime` in non-increasing (descending,
ties allowed) order — in both the date-folder traversal path and the
fallback full-recursive-walk path. -/
theorem listRecentFiles_length_le_and_sorted_desc (basePath : String)
    (entries : List FSEntry) (capCount : Nat) :
    (listRecentFiles basePath entries capCount).length ≤ capCount ∧
    (listRecentFiles basePath entries capCount).Pairwise
      (fun a b => b.modifyTime ≤ a.modifyTime) := by
  have main : ∀ l : List FileInfo,
      ((sortDescBy (fun f : FileInfo => (f.modifyTime : Int)) l).take capCount).length
          ≤ capCount ∧
      ((sortDescBy (fun f : FileInfo => (f.modifyTime : Int)) l).take capCount).Pairwise
        (fun a b => b.modifyTime ≤ a.modifyTime) := by
    intro l
    obtain ⟨h1, h2⟩ :=
      take_sortDescBy_bounded_sorted (fun f : FileInfo => (f.modifyTime : Int)) l capCount
    exact ⟨h1, h2.imp (fun h => by exact_mod_cast h)⟩
  unfold listRecentFiles
  split
  · exact main _
  · exact main _

/-- The remote tree refuting C1 as literally stated: one date folder holding
two `.wav` files with the same `modifyTime`. -/
def tieEntries : List FSEntry :=
  [.dir "campaignA" [.dir "2024_11_02" [.file "a.wav" 1 500, .file "b.wav" 1 500]]]

/-- C1 counterexample: with two equally-recent files the listing stays within
the cap but is not *strictly* descending in `modifyTime`. -/
theorem listRecentFiles_not_strictly_descending :
    ¬ ((listRecentFiles "/recordings" tieEntries 10).length ≤ 10 ∧
       (listRecentFiles "/recordings" tieEntries 10).Pairwise
         (fun a b => b.modifyTime < a.modifyTime)) := by
  intro h
  have hres : listRecentFiles "/recordings" tieEntries 10 =
      [⟨"a.wav", 1, 500, "/recordings/campaignA/2024_11_02/a.wav"⟩,
       ⟨"b.wav", 1, 500, "/recordings/campaignA/2024_11_02/b.wav"⟩] := by decide
  rw [hres] at h
  obtain ⟨-, h2⟩ := h
  rw [List.pairwise_cons] at h2
  have := h2.1 _ (List.mem_singleton.mpr rfl)
  simp at this

/-- The C7 scenario tree: one campaign folder with date subfolders
`11_01_2024` and `11_02_2024` (two `.wav` files each) and a non-date folder
`garbage` (three `.wav` files). -/
def c7entries : List FSEntry :=
  [.dir "campaignA"
    [.dir "11_01_2024" [.file "a1.wav" 10 100, .file "a2.wav" 10 101],
     .dir "11_02_2024" [.file "b1.wav" 10 200, .file "b2.wav" 10 201],
     .dir "garbage" [.file "g1.wav" 10 900, .file "g2.wav" 10 901, .file "g3.wav" 10 902]]]

/-- C7: on the scenario tree the date-folder set is `11_02_2024` before
`11_01_2024` (newest first, `garbage` excluded from traversal), and with
`capCount = 2` the collection short-circuits after the two files of
`11_02_2024`: they are the whole result, `garbage`'s files never appear. -/
theorem listRecentFiles_date_folder_scenario :
    (listDateFolders "/recordings" c7entries).map (fun f => f.path) =
      ["/recordings/campaignA/11_02_2024", "/recordings/campaignA/11_01_2024"] ∧
    listRecentFiles "/recordings" c7entries 2 =
      [⟨"b2.wav", 10, 201, "/recordings/campaignA/11_02_2024/b2.wav"⟩,
       ⟨"b1.wav", 10, 200, "/recordings/campaignA/11_02_2024/b1.wav"⟩] := by
  constructor <;> decide

/-! ## Error taxonomy (`src/utils/errors.ts`) -/

/-- The data of a `BaseError`: message, stable code, diagnostic context
(values carried as their string rendering) and the retryability flag fixed
at construction. -/
structure BaseErrorData where
  message : String
  code : String
  context : List (String × String)
  isRetryable : Bool
deriving DecidableEq, Repr

/-- A JS thrown value as seen by `retryWithBackoff`: a `BaseError`, some
other `Error`, or a non-`Error` value (carried as its `String(error)`
coercion). -/
inductive Thrown where
  | base (e : BaseErrorData)
  | plainErr (message : String)
  | nonError (coerced : String)
deriving DecidableEq, Repr

/-- The `code` of a thrown value, when it is a `BaseError`. -/
def errCode : Thrown → Option String
  | .base e => some e.code
  | _ => none

/-- The `message` of a thrown value (its string coercion for non-errors). -/
def errMessage : Thrown → String
  | .base e => e.message
  | .plainErr m => m
  | .nonError s => s

/-- `instanceof BaseError`. -/
def isBaseError : Thrown → Bool
  | .base _ => true
  | _ => false

/-- The `SftpError` constructor: it passes `true` for `isRetryable` to
`BaseError` unconditionally ("SFTP errors are generally retryable"). -/
def SftpError.make (message code : String)
    (context : List (String × String)) : BaseErrorData :=
  ⟨message, code, context, true⟩

/-- `SftpError.connectionFailed`. -/
def SftpError.connectionFailed (host originalError : String) : BaseErrorData :=
  SftpError.make "SFTP connection failed" "SFTP_CONNECTION_FAILED"
    [("host", host), ("originalError", originalError)]

/-- `SftpError.downloadFailed`. -/
def SftpError.downloadFailed (remotePath originalError : String) : BaseErrorData :=
  SftpError.make "Failed to download file from SFTP" "SFTP_DOWNLOAD_FAILED"
    [("remotePath", remotePath), ("originalError", originalError)]

/-- `SftpError.listFailed`. -/
def SftpError.listFailed (remotePath originalError : String) : BaseErrorData :=
  SftpError.make "Failed to list files on SFTP" "SFTP_LIST_FAILED"
    [("remotePath", remotePath), ("originalError", originalError)]

/-- `SftpError.deleteFailed`. -/
def SftpError.deleteFailed (remotePath originalError : String) : BaseErrorData :=
  SftpError.make "Failed to delete file on SFTP" "SFTP_DELETE_FAILED"
    [("remotePath", remotePath), ("originalError", originalError)]

/-- `SftpError.authenticationFailed`, built through the same constructor —
so it also carries `isRetryable = true`. -/
def SftpError.authenticationFailed (username : String) : BaseErrorData :=
  SftpError.make "SFTP authentication failed" "SFTP_AUTH_FAILED"
    [("username", username)]

/-- The `TranscriptionError` constructor (`isRetryable` defaults to
`false`). -/
def TranscriptionError.make (message code : String)
    (context : List (String × String)) (isRetryable : Bool := false) :
    BaseErrorData :=
  ⟨message, code, context, isRetryable⟩

/-- `TranscriptionError.fileTooLarge` (never called by the pipeline). -/
def TranscriptionError.fileTooLarge (filePath : String) (size maxSize : Nat) :
    BaseErrorData :=
  TranscriptionError.make "File exceeds maximum size limit" "FILE_TOO_LARGE"
    [("filePath", filePath), ("size", toString size), ("maxSize", toString maxSize)]

/-- `TranscriptionError.invalidFormat` (never called by the pipeline). -/
def TranscriptionError.invalidFormat (filePath extension : String) : BaseErrorData :=
  TranscriptionError.make "Invalid file format" "INVALID_FORMAT"
    [("filePath", filePath), ("extension", extension)]

/-! ## Retry executor (`src/utils/retry.ts`) -/

/-- `RetryOptions` (`onRetry` is observed through the trace instead of a
callback value). -/
structure RetryOptions where
  maxRetries : Nat
  delayMs : Nat
  exponentialBackoff : Bool := true
deriving DecidableEq, Repr

/-- `lastError = error instanceof Error ? error : new Error(String(error))`. -/
def toError : Thrown → Thrown
  | .base e => .base e
  | .plainErr m => .plainErr m
  | .nonError s => .plainErr s

/-- The guard `error instanceof BaseError && !error.isRetryable`. -/
def nonRetryableTyped : Thrown → Bool
  | .base e => !e.isRetryable
  | _ => false

/-- The attempt outcome is a failure the executor is willing to retry
(anything but a `BaseError` with `isRetryable = false`). -/
def failsRetryably : Except Thrown α → Bool
  | .error t => !nonRetryableTyped t
  | .ok _ => false

/-- `const delay = exponentialBackoff ? delayMs * Math.pow(2, attempt) : delayMs`. -/
def retryDelay (options : RetryOptions) (attempt : Nat) : Nat :=
  if options.exponentialBackoff then options.delayMs * 2 ^ attempt else options.delayMs

/-- The observable trace of one `retryWithBackoff` call: outcome, number of
operation invocations, every back-off delay slept (in order) and every
`onRetry(error, attempt)` invocation. -/
structure RetryTrace (α : Type) where
  result : Except Thrown α
  calls : Nat
  sleeps : List Nat
  onRetryCalls : List (Thrown × Nat)
deriving Repr

/-- The `for (let attempt = 0; attempt <= maxRetries; attempt++)` loop of
`retryWithBackoff`.  The operation is the sequence of outcomes of its
successive invocations; `fuel` is `maxRetries + 1 - attempt`, making the
`fuel = 0` case the source's unreachable post-loop throw. -/
def retryGo (op : Nat → Except Thrown α) (maxRetries delayMs : Nat)
    (expo : Bool) : Nat → Nat → RetryTrace α
  | _, 0 => ⟨.error (.plainErr "Retry failed without a captured error"), 0, [], []⟩
  | attempt, fuel + 1 =>
    match op attempt with
    | .ok v => ⟨.ok v, 1, [], []⟩
    | .error thrown =>
      let lastError := toError thrown
      if nonRetryableTyped thrown then ⟨.error lastError, 1, [], []⟩
      else if attempt = maxRetries then ⟨.error lastError, 1, [], []⟩
      else
        let delay := retryDelay ⟨maxRetries, delayMs, expo⟩ attempt
        let rest := retryGo op maxRetries delayMs expo (attempt + 1) fuel
        ⟨rest.result, rest.calls + 1, delay :: rest.sleeps,
          (lastError, attempt + 1) :: rest.onRetryCalls⟩

/-- `retryWithBackoff(fn, options)`: the attempt loop started at attempt 0. -/
def retryWithBackoff (op : Nat → Except Thrown α) (options : RetryOptions) :
    RetryTrace α :=
  retryGo op options.maxRetries options.delayMs options.exponentialBackoff 0
    (options.maxRetries + 1)

theorem range_succ_shift {β : Type} (f : Nat → β) (k : Nat) :
    (List.range (k + 1)).map f = f 0 :: (List.range k).map (fun i => f (i + 1)) := by
  rw [List.range_succ_eq_map, List.map_cons, List.map_map]
  rfl

theorem retryGo_ok_spec (op : Nat → Except Thrown α) (mR dMs : Nat)
    (expo : Bool) (v : α) :
    ∀ (k a : Nat), a + k ≤ mR →
      (∀ i, i < k → failsRetryably (op (a + i)) = true) →
      op (a + k) = Except.ok v →
      (retryGo op mR dMs expo a (mR + 1 - a)).result = Except.ok v ∧
      (retryGo op mR dMs expo a (mR + 1 - a)).calls = k + 1 ∧
      (retryGo op mR dMs expo a (mR + 1 - a)).sleeps =
        (List.range k).map (fun i => retryDelay ⟨mR, dMs, expo⟩ (a + i)) ∧
      (retryGo op mR dMs expo a (mR + 1 - a)).onRetryCalls.map Prod.snd =
        (List.range k).map (fun i => a + i + 1) := by
  intro k
  induction k with
  | zero =>
    intro a hle _ hok
    rw [Nat.add_zero] at hok
    have hfuel : mR + 1 - a = (mR - a) + 1 := by omega
    rw [hfuel]
    simp [retryGo, hok]
  | succ k ih =>
    intro a hle hfails hok
    have h0 : failsRetryably (op a) = true := by
      have := hfails 0 (Nat.succ_pos k)
      simpa using this
    cases hop : op a with
    | ok w => rw [hop] at h0; simp [failsRetryably] at h0
    | error t =>
      have hnr : nonRetryableTyped t = false := by
        rw [hop] at h0; simpa [failsRetryably] using h0
      have hne : a ≠ mR := by omega
      have hfuel : mR + 1 - a = (mR + 1 - (a + 1)) + 1 := by omega
      rw [hfuel]
      have ihh := ih (a + 1) (by omega)
        (fun i hi => by
          have := hfails (i + 1) (by omega)
          simpa [Nat.add_assoc, Nat.add_comm 1 i] using this)
        (by rw [show a + 1 + k = a + (k + 1) by omega]; exact hok)
      obtain ⟨ih1, ih2, ih3, ih4⟩ := ihh
      have hstep : retryGo op mR dMs expo a ((mR + 1 - (a + 1)) + 1) =
          ⟨(retryGo op mR dMs expo (a + 1) (mR + 1 - (a + 1))).result,
           (retryGo op mR dMs expo (a + 1) (mR + 1 - (a + 1))).calls + 1,
           retryDelay ⟨mR, dMs, expo⟩ a ::
             (retryGo op mR dMs expo (a + 1) (mR + 1 - (a + 1))).sleeps,
           (toError t, a + 1) ::
             (retryGo op mR dMs expo (a + 1) (mR + 1 - (a + 1))).onRetryCalls⟩ := by
        simp [retryGo, hop, hnr, hne]
      refine ⟨?_, ?_, ?_, ?_⟩
      · rw [hstep]
        exact ih1
      · rw [hstep]
        show (retryGo op mR dMs expo (a + 1) (mR + 1 - (a + 1))).calls + 1 = k + 1 + 1
        rw [ih2]
      · rw [hstep]
        show retryDelay ⟨mR, dMs, expo⟩ a ::
            (retryGo op mR dMs expo (a + 1) (mR + 1 - (a + 1))).sleeps = _
        rw [ih3, range_succ_shift (fun i => retryDelay ⟨mR, dMs, expo⟩ (a + i)) k]
        congr 1
        apply List.map_congr_left
        intro i _
        congr 1
        omega
      · rw [hstep]
        show (a + 1) :: List.map Prod.snd
            (retryGo op mR dMs expo (a + 1) (mR + 1 - (a + 1))).onRetryCalls = _
        rw [ih4, range_succ_shift (fun i => a + i + 1) k]
        congr 1
        apply List.map_congr_left
        intro i _
        omega

theorem retryGo_allfail_spec (op : Nat → Except Thrown α) (mR dMs : Nat)
    (expo : Bool) (t : Thrown) :
    ∀ (k a : Nat), a + k = mR →
      (∀ i, i < k → failsRetryably (op (a + i)) = true) →
      op mR = Except.error t →
      (retryGo op mR dMs expo a (mR + 1 - a)).result = Except.error (toError t) ∧
      (retryGo op mR dMs expo a (mR + 1 - a)).calls = k + 1 ∧
      (retryGo op mR dMs expo a (mR + 1 - a)).sleeps =
        (List.range k).map (fun i => retryDelay ⟨mR, dMs, expo⟩ (a + i)) := by
  intro k
  induction k with
  | zero =>
    intro a ha _ herr
    have ha0 : a = mR := by omega
    subst ha0
    have hfuel : a + 1 - a = 0 + 1 := by omega
    rw [hfuel]
    rcases hb : nonRetryableTyped t with _ | _ <;> simp [retryGo, herr, hb]
  | succ k ih =>
    intro a ha hfails herr
    have h0 : failsRetryably (op a) = true := by
      have := hfails 0 (Nat.succ_pos k)
      simpa using this
    cases hop : op a with
    | ok w => rw [hop] at h0; simp [failsRetryably] at h0
    | error u =>
      have hnr : nonRetryableTyped u = false := by
        rw [hop] at h0; simpa [failsRetryably] using h0
      have hne : a ≠ mR := by omega
      have hfuel : mR + 1 - a = (mR + 1 - (a + 1)) + 1 := by omega
      rw [hfuel]
      have ihh := ih (a + 1) (by omega)
        (fun i hi => by
          have := hfails (i + 1) (by omega)
          simpa [Nat.add_assoc, Nat.add_comm 1 i] using this)
        herr
      obtain ⟨ih1, ih2, ih3⟩ := ihh
      have hstep : retryGo op mR dMs expo a ((mR + 1 - (a + 1)) + 1) =
          ⟨(retryGo op mR dMs expo (a + 1) (mR + 1 - (a + 1))).result,
           (retryGo op mR dMs expo (a + 1) (mR + 1 - (a + 1))).calls + 1,
           retryDelay ⟨mR, dMs, expo⟩ a ::
             (retryGo op mR dMs expo (a + 1) (mR + 1 - (a + 1))).sleeps,
           (toError u, a + 1) ::
             (retryGo op mR dMs expo (a + 1) (mR + 1 - (a + 1))).onRetryCalls⟩ := by
        simp [retryGo, hop, hnr, hne]
      refine ⟨?_, ?_, ?_⟩
      · rw [hstep]
        exact ih1
      · rw [hstep]
        show (retryGo op mR dMs expo (a + 1) (mR + 1 - (a + 1))).calls + 1 = k + 1 + 1
        rw [ih2]
      · rw [hstep]
        show retryDelay ⟨mR, dMs, expo⟩ a ::
            (retryGo op mR dMs expo (a + 1) (mR + 1 - (a + 1))).sleeps = _
        rw [ih3, range_succ_shift (fun i => retryDelay ⟨mR, dMs, expo⟩ (a + i)) k]
        congr 1
        apply List.map_congr_left
        intro i _
        congr 1
        omega

/-- C4: an operation failing retryably `N ≤ maxRetries` times and then
succeeding is invoked exactly `N + 1` times (the loop embedding is strictly
sequential) and its result is returned, with the executor sleeping
`delayMs` (constant mode) or `delayMs * 2 ^ i` (exponential mode) before
the `i`-th retry, so the total slept time is at least the sum of the
configured per-attempt delays; an operation failing retryably on every
permitted attempt is invoked exactly `maxRetries + 1` times. -/
theorem retryWithBackoff_attempt_schedule {α : Type} :
    (∀ (op : Nat → Except Thrown α) (o : RetryOptions) (N : Nat) (v : α),
      N ≤ o.maxRetries →
      (∀ i, i < N → failsRetryably (op i) = true) →
      op N = Except.ok v →
      (retryWithBackoff op o).result = Except.ok v ∧
      (retryWithBackoff op o).calls = N + 1 ∧
      (retryWithBackoff op o).sleeps = (List.range N).map (retryDelay o) ∧
      ((List.range N).map (retryDelay o)).sum ≤ (retryWithBackoff op o).sleeps.sum) ∧
    (∀ (op : Nat → Except Thrown α) (o : RetryOptions) (t : Thrown),
      (∀ i, i < o.maxRetries → failsRetryably (op i) = true) →
      op o.maxRetries = Except.error t →
      (retryWithBackoff op o).calls = o.maxRetries + 1 ∧
      (retryWithBackoff op o).sleeps = (List.range o.maxRetries).map (retryDelay o)) := by
  constructor
  · intro op o N v hN hfails hok
    have h := retryGo_ok_spec op o.maxRetries o.delayMs o.exponentialBackoff v N 0
      (by omega) (fun i hi => by simpa using hfails i hi) (by simpa using hok)
    rw [Nat.sub_zero] at h
    obtain ⟨h1, h2, h3, _⟩ := h
    have hmap : (List.range N).map
        (fun i => retryDelay ⟨o.maxRetries, o.delayMs, o.exponentialBackoff⟩ (0 + i)) =
        (List.range N).map (retryDelay o) := by
      apply List.map_congr_left
      intro i _
      rw [Nat.zero_add]
    refine ⟨h1, h2, ?_, ?_⟩
    · rw [retryWithBackoff, h3, hmap]
    · rw [retryWithBackoff, h3, hmap]
  · intro op o t hfails herr
    have h := retryGo_allfail_spec op o.maxRetries o.delayMs o.exponentialBackoff t
      o.maxRetries 0 (by omega) (fun i hi => by simpa using hfails i hi) herr
    rw [Nat.sub_zero] at h
    obtain ⟨_, h2, h3⟩ := h
    have hmap : (List.range o.maxRetries).map
        (fun i => retryDelay ⟨o.maxRetries, o.delayMs, o.exponentialBackoff⟩ (0 + i)) =
        (List.range o.maxRetries).map (retryDelay o) := by
      apply List.map_congr_left
      intro i _
      rw [Nat.zero_add]
    exact ⟨h2, by rw [retryWithBackoff, h3, hmap]⟩

/-- C4 witness: scenario 2 of the spec — two retryable failures then
success under `{maxRetries := 3, delayMs := 100, exponential}` produce 3
total calls and the sleep schedule `[100, 200]`, total 300. -/
theorem retryWithBackoff_attempt_schedule_witness :
    (retryWithBackoff
        (fun i => if i < 2 then Except.error (Thrown.plainErr "boom") else Except.ok 42)
        ⟨3, 100, true⟩).result = Except.ok 42 ∧
    (retryWithBackoff
        (fun i => if i < 2 then Except.error (Thrown.plainErr "boom") else Except.ok 42)
        ⟨3, 100, true⟩).calls = 3 ∧
    (retryWithBackoff
        (fun i => if i < 2 then Except.error (Thrown.plainErr "boom") else Except.ok 42)
        ⟨3, 100, true⟩).sleeps.sum = 300 := by
  have h := (retryWithBackoff_attempt_schedule (α := Nat)).1
    (fun i => if i < 2 then Except.error (Thrown.plainErr "boom") else Except.ok 42)
    ⟨3, 100, true⟩ 2 42 (by decide) (by decide) (by rfl)
  refine ⟨h.1, h.2.1, ?_⟩
  rw [h.2.2.1]
  decide

/-- C5: a first failure that is a `BaseError` with `isRetryable = false`
stops the executor after exactly one invocation and is rethrown as the very
same error value (same code, message and context); when all permitted
attempts fail, the rethrown error is `toError` of the last thrown value,
which preserves code and message; and a thrown value that is not a
`BaseError` never triggers the non-retryable early exit — it is retried and
consumes the attempt budget. -/
theorem retryWithBackoff_error_identity {α : Type} :
    (∀ (op : Nat → Except Thrown α) (o : RetryOptions) (e : BaseErrorData),
      op 0 = Except.error (Thrown.base e) → e.isRetryable = false →
      retryWithBackoff op o = ⟨Except.error (Thrown.base e), 1, [], []⟩) ∧
    (∀ (op : Nat → Except Thrown α) (o : RetryOptions) (t : Thrown),
      (∀ i, i < o.maxRetries → failsRetryably (op i) = true) →
      op o.maxRetries = Except.error t →
      (retryWithBackoff op o).result = Except.error (toError t) ∧
      errCode (toError t) = errCode t ∧
      errMessage (toError t) = errMessage t) ∧
    (∀ t : Thrown, isBaseError t = false → nonRetryableTyped t = false) ∧
    (∀ (op : Nat → Except Thrown α) (o : RetryOptions) (s : String) (v : α),
      1 ≤ o.maxRetries →
      op 0 = Except.error (Thrown.nonError s) → op 1 = Except.ok v →
      (retryWithBackoff op o).result = Except.ok v ∧
      (retryWithBackoff op o).calls = 2) := by
  refine ⟨?_, ?_, ?_, ?_⟩
  · intro op o e hop hret
    simp [retryWithBackoff, retryGo, hop, nonRetryableTyped, toError, hret]
  · intro op o t hfails herr
    have h := retryGo_allfail_spec op o.maxRetries o.delayMs o.exponentialBackoff t
      o.maxRetries 0 (by omega) (fun i hi => by simpa using hfails i hi) herr
    rw [Nat.sub_zero] at h
    exact ⟨h.1, by cases t <;> rfl, by cases t <;> rfl⟩
  · intro t ht
    cases t with
    | base e => simp [isBaseError] at ht
    | plainErr m => rfl
    | nonError s => rfl
  · intro op o s v h1 hop0 hop1
    have h := retryGo_ok_spec op o.maxRetries o.delayMs o.exponentialBackoff v 1 0
      (by omega)
      (fun i hi => by
        have hi0 : i = 0 := by omega
        subst hi0
        simp [failsRetryably, hop0, nonRetryableTyped])
      (by simpa using hop1)
    rw [Nat.sub_zero] at h
    exact ⟨h.1, h.2.1⟩

/-- C5 witness: a non-retryable typed error (`FILE_TOO_LARGE`) is rethrown
unchanged after exactly one call, and a non-`Error`-typed failure is
retried, consuming the budget (2 calls before the success). -/
theorem retryWithBackoff_error_identity_witness :
    retryWithBackoff (α := Nat)
        (fun _ => Except.error
          (Thrown.base (TranscriptionError.fileTooLarge "/f.mp3" 30000000 26214400)))
        (⟨3, 10, true⟩ : RetryOptions) =
      ⟨Except.error
          (Thrown.base (TranscriptionError.fileTooLarge "/f.mp3" 30000000 26214400)),
        1, [], []⟩ ∧
    (retryWithBackoff
        (fun i => if i = 0 then Except.error (Thrown.nonError "weird") else Except.ok 7)
        (⟨2, 5, false⟩ : RetryOptions)).calls = 2 :=
  ⟨(retryWithBackoff_error_identity (α := Nat)).1 _ _ _ rfl rfl,
   ((retryWithBackoff_error_identity (α := Nat)).2.2.2 _ _ "weird" 7 (by decide)
      rfl rfl).2⟩

/-- C6 (the code's actual behavior): the `SftpError` constructor hardcodes
`isRetryable = true`, so `SftpError.authenticationFailed` — like every other
remote-store error — is constructed retryable, and the retry executor
given such an error runs the operation to exhaustion (3 invocations for
`maxRetries = 2`) instead of stopping after one attempt. -/
theorem sftpError_authenticationFailed_retryable :
    (SftpError.authenticationFailed "user").isRetryable = true ∧
    (∀ host e, (SftpError.connectionFailed host e).isRetryable = true) ∧
    (∀ p e, (SftpError.downloadFailed p e).isRetryable = true) ∧
    (∀ p e, (SftpError.listFailed p e).isRetryable = true) ∧
    (∀ p e, (SftpError.deleteFailed p e).isRetryable = true) ∧
    (retryWithBackoff (α := Nat)
        (fun _ => Except.error (Thrown.base (SftpError.authenticationFailed "user")))
        (⟨2, 100, true⟩ : RetryOptions)).calls = 3 := by
  refine ⟨rfl, fun _ _ => rfl, fun _ _ => rfl, fun _ _ => rfl, fun _ _ => rfl, ?_⟩
  decide

/-! ## Transcription entry point (`src/services/transcription.service.ts`) -/

/-- The local scratch filesystem: the set of existing local file paths. -/
def addFile (fs : List String) (p : String) : List String :=
  if p ∈ fs then fs else fs ++ [p]

/-- `fs.unlinkSync` guarded by `fs.existsSync`. -/
def removeFile (fs : List String) (p : String) : List String :=
  fs.filter (fun q => q ≠ p)

/-- `TranscriptionService.transcribe(filePath)`: Whisper call, diarization
call (`content ||` falls back to the Whisper text on a missing or empty
choice), then the formatted text is written to the `.txt` sidecar next to
`filePath` and returned.  There is no size or format check; the `catch`
block rethrows the collaborator's error unchanged.  The two OpenAI calls
are the sequences of outcomes `whisper` and `diarize`; the scratch
filesystem is threaded explicitly. -/
def transcribe (filePath : String) (whisper : Except Thrown String)
    (diarize : Except Thrown (Option String)) (fs : List String) :
    List String × Except Thrown String :=
  match whisper with
  | .error e => (fs, .error e)
  | .ok wtext =>
    match diarize with
    | .error e => (fs, .error e)
    | .ok choice =>
      let formattedText :=
        match choice with
        | some c => if c = "" then wtext else c
        | none => wtext
      let transcriptPath := jsStripExt filePath ++ ".txt"
      (addFile fs transcriptPath, .ok formattedText)

/-! ## Pipeline orchestrator (`src/pipeline/orchestrator.ts`) -/

/-- The orchestrator's mutable `state` object. -/
structure RunState where
  isRunning : Bool
  shouldStop : Bool
  processedCount : Nat
  failedCount : Nat
deriving DecidableEq, Repr

/-- The state installed by the `PipelineOrchestrator` constructor. -/
def initialState : RunState :=
  ⟨false, false, 0, 0⟩

/-- `SpacesUploadResult` of `SpacesService.uploadCallFiles`. -/
structure SpacesUploadResult where
  audioUrl : String
  transcriptUrl : String
deriving DecidableEq, Repr

/-- The collaborators of one run, each stage modelled as the sequence of
observed outcomes of its (already retry-wrapped) service call per item.
`stopBefore i` is the value of `state.shouldStop` observed at the loop
check before item `i` (the flag is set asynchronously by `stop()`); once
`stop` has run it stays `true`. -/
structure PipelineEnv where
  downloadDir : String
  ensureDirs : Except Thrown Unit
  connect : Except Thrown Unit
  listResult : Except Thrown (List FileInfo)
  download : FileInfo → Except Thrown Unit
  transcode : FileInfo → Except Thrown Unit
  whisper : FileInfo → Except Thrown String
  diarize : FileInfo → Except Thrown (Option String)
  spaces : Option (FileInfo → Except Thrown SpacesUploadResult)
  notion : FileInfo → Except Thrown Unit
  stopBefore : Nat → Bool

/-- The outcome of one item as observed by the loop. -/
inductive ItemOutcome where
  | skipped
  | processed
  | failed
deriving DecidableEq, Repr

/-- The skip guard of `processRecording`:
`recording.name.includes('_playable') || !recording.name.endsWith('.wav')`. -/
def skipCheck (name : String) : Bool :=
  jsIncludes name "_playable" || !(jsEndsWith name ".wav")

/-- `PipelineOrchestrator.processRecording`: the skip guard, then the
four-stage sub-pipeline inside `try`, each stage failure jumping to the
`catch` block which increments `failedCount`; the success path increments
`processedCount`.  The local filesystem is threaded as the set of scratch
paths: download creates the `.wav`, ffmpeg creates the `_playable.mp3`,
`transcribe` creates its `_playable.txt` sidecar, and only when a spaces
service is configured the orchestrator writes the `.txt` transcript,
uploads, and unlinks the three paths it knows about. -/
def processRecording (env : PipelineEnv) (st : RunState) (fs : List String)
    (rec : FileInfo) : RunState × List String × ItemOutcome :=
  if skipCheck rec.name then (st, fs, .skipped)
  else
    let localPath := pjoin env.downloadDir rec.name
    let playablePath := jsReplaceFirst localPath ".wav" "_playable.mp3"
    match env.download rec with
    | .error _ => ({ st with failedCount := st.failedCount + 1 }, fs, .failed)
    | .ok _ =>
      let fs1 := addFile fs localPath
      match env.transcode rec with
      | .error _ => ({ st with failedCount := st.failedCount + 1 }, fs1, .failed)
      | .ok _ =>
        let fs2 := addFile fs1 playablePath
        match transcribe playablePath (env.whisper rec) (env.diarize rec) fs2 with
        | (fs3, .error _) =>
          ({ st with failedCount := st.failedCount + 1 }, fs3, .failed)
        | (fs3, .ok _) =>
          match env.spaces with
          | some upload =>
            let transcriptPath := jsReplaceFirst localPath ".wav" ".txt"
            let fs4 := addFile fs3 transcriptPath
            match upload rec with
            | .error _ =>
              ({ st with failedCount := st.failedCount + 1 }, fs4, .failed)
            | .ok _ =>
              let fs5 :=
                removeFile (removeFile (removeFile fs4 localPath) playablePath)
                  transcriptPath
              match env.notion rec with
              | .error _ =>
                ({ st with failedCount := st.failedCount + 1 }, fs5, .failed)
              | .ok _ =>
                ({ st with processedCount := st.processedCount + 1 }, fs5, .processed)
          | none =>
            match env.notion rec with
            | .error _ =>
              ({ st with failedCount := st.failedCount + 1 }, fs3, .failed)
            | .ok _ =>
              ({ st with processedCount := st.processedCount + 1 }, fs3, .processed)

/-- The `for (const file of files) { if (this.state.shouldStop) break; ... }`
loop of `start`; `idx` is the position of the next item in the catalog
order, used to look up the observed stop flag. -/
def runLoop (env : PipelineEnv) (files : List FileInfo) (idx : Nat)
    (st : RunState) (fs : List String) :
    RunState × List String × List ItemOutcome :=
  match files with
  | [] => (st, fs, [])
  | f :: rest =>
    if env.stopBefore idx then (st, fs, [])
    else
      let r1 := processRecording env st fs f
      let r2 := runLoop env rest (idx + 1) r1.1 r1.2.1
      (r2.1, r2.2.1, r1.2.2 :: r2.2.2)

/-- `PipelineOrchestrator.start` from the instance state `st`: sets
`isRunning`/`shouldStop`, runs `ensureDirectories`, `connect` and
`listFiles` — each failure propagating to the caller — then the item loop;
the `finally` clears `isRunning`. -/
def start (env : PipelineEnv) (st : RunState) :
    Except Thrown (RunState × List String × List ItemOutcome) :=
  let st0 : RunState := { st with isRunning := true, shouldStop := false }
  match env.ensureDirs with
  | .error e => .error e
  | .ok _ =>
    match env.connect with
    | .error e => .error e
    | .ok _ =>
      match env.listResult with
      | .error e => .error e
      | .ok files =>
        let r := runLoop env files 0 st0 []
        .ok ({ r.1 with isRunning := false }, r.2.1, r.2.2)

/-- C10: an item whose name contains `_playable` or does not end with the
exact lowercase `.wav` suffix is returned from `processRecording` untouched
for every environment — no stage runs, the scratch filesystem is unchanged
and neither counter moves; such items can indeed be in the catalog, because
the catalog's extension filter is case-insensitive: a file named `CALL.WAV`
is listed by the recursive walk. -/
theorem processRecording_skip_guard :
    (∀ (env : PipelineEnv) (st : RunState) (fs : List String) (rec : FileInfo),
      jsIncludes rec.name "_playable" = true ∨ jsEndsWith rec.name ".wav" = false →
      processRecording env st fs rec = (st, fs, ItemOutcome.skipped)) ∧
    (listFilesRecursive "/r" [FSEntry.file "CALL.WAV" 5 99] [] none).map
        (fun f => f.name) = ["CALL.WAV"] := by
  constructor
  · intro env st fs rec h
    have hs : skipCheck rec.name = true := by
      rcases h with h | h <;> simp [skipCheck, h]
    simp [processRecording, hs]
  · decide

/-- C10 witness: the uppercase-extension file `CALL.WAV` is skipped without
any state change. -/
theorem processRecording_skip_guard_witness :
    processRecording
        ⟨"/downloads", Except.ok (), Except.ok (), Except.ok [],
          fun _ => Except.ok (), fun _ => Except.ok (), fun _ => Except.ok "t",
          fun _ => Except.ok none, none, fun _ => Except.ok (), fun _ => false⟩
        initialState [] ⟨"CALL.WAV", 5, 99, "/r/CALL.WAV"⟩ =
      (initialState, [], ItemOutcome.skipped) :=
  processRecording_skip_guard.1 _ _ _ _ (Or.inr (by decide))

theorem runLoop_length_nostop (env : PipelineEnv)
    (hstop : ∀ i, env.stopBefore i = false) :
    ∀ (files : List FileInfo) (idx : Nat) (st : RunState) (fs : List String),
      (runLoop env files idx st fs).2.2.length = files.length := by
  intro files
  induction files with
  | nil => intro idx st fs; simp [runLoop]
  | cons f rest ih =>
    intro idx st fs
    simp [runLoop, hstop idx, ih]

/-- C3: item-level failures are caught at item granularity — whenever an
item's sub-pipeline fails, the state records exactly one more `failedCount`
and nothing else changes in the counters — and under a run whose connection
and listing succeed, `start` returns normally with one outcome per catalog
item (so every item after a failing one is still attempted); by contrast, a
failure of `connect` at the very start of `start` is not caught there and
propagates to the caller. -/
theorem item_failures_isolated_connect_propagates :
    (∀ (env : PipelineEnv) (st : RunState) (e : Thrown),
      env.ensureDirs = Except.ok () → env.connect = Except.error e →
      start env st = Except.error e) ∧
    (∀ (env : PipelineEnv) (st : RunState) (fs : List String) (rec : FileInfo),
      (processRecording env st fs rec).2.2 = ItemOutcome.failed →
      (processRecording env st fs rec).1 =
        { st with failedCount := st.failedCount + 1 }) ∧
    (∀ (env : PipelineEnv) (st : RunState) (files : List FileInfo),
      env.ensureDirs = Except.ok () → env.connect = Except.ok () →
      env.listResult = Except.ok files →
      (∀ i, env.stopBefore i = false) →
      ∃ res, start env st = Except.ok res ∧ res.2.2.length = files.length) := by
  refine ⟨?_, ?_, ?_⟩
  · intro env st e h1 h2
    unfold start
    rw [h1, h2]
  · intro env st fs rec
    unfold processRecording
    dsimp only
    repeat' split
    all_goals intro h
    all_goals first
      | rfl
      | simp at h
  · intro env st files h1 h2 h3 hstop
    refine
      ⟨({(runLoop env files 0 { st with isRunning := true, shouldStop := false } []).1
          with isRunning := false},
        (runLoop env files 0 { st with isRunning := true, shouldStop := false } []).2.1,
        (runLoop env files 0 { st with isRunning := true, shouldStop := false } []).2.2),
       ?_, ?_⟩
    · unfold start
      rw [h1, h2, h3]
    · exact runLoop_length_nostop env hstop files 0 _ []

/-- A fully-succeeding run environment for the concrete scenarios: every
collaborator call succeeds, no spaces service, no stop request. -/
def okEnv : PipelineEnv where
  downloadDir := "/downloads"
  ensureDirs := Except.ok ()
  connect := Except.ok ()
  listResult := Except.ok []
  download := fun _ => Except.ok ()
  transcode := fun _ => Except.ok ()
  whisper := fun _ => Except.ok "text"
  diarize := fun _ => Except.ok none
  spaces := none
  notion := fun _ => Except.ok ()
  stopBefore := fun _ => false

/-- A two-item run in which the first item's transcode stage always fails. -/
def failFirstEnv : PipelineEnv :=
  { okEnv with
    listResult := Except.ok
      [⟨"a.wav", 1, 10, "/r/a.wav"⟩, ⟨"b.wav", 1, 20, "/r/b.wav"⟩],
    transcode := fun r =>
      if r.name = "a.wav" then Except.error (Thrown.plainErr "ffmpeg failed")
      else Except.ok () }

/-- C3 witness: in the two-item run where item 1 fails at the transcode
stage, `start` still returns normally with one outcome per item, the
failing item adds exactly one to `failedCount`, and a connect failure
propagates out of `start`. -/
theorem item_failures_isolated_connect_propagates_witness :
    (processRecording failFirstEnv initialState [] ⟨"a.wav", 1, 10, "/r/a.wav"⟩).1 =
      { initialState with failedCount := 1 } ∧
    start
        { failFirstEnv with
          connect := Except.error (Thrown.base (SftpError.connectionFailed "h" "boom")) }
        initialState =
      Except.error (Thrown.base (SftpError.connectionFailed "h" "boom")) ∧
    start failFirstEnv initialState =
      Except.ok ((⟨false, false, 1, 1⟩ : RunState),
        ["/downloads/a.wav", "/downloads/b.wav", "/downloads/b_playable.mp3",
         "/downloads/b_playable.txt"],
        [ItemOutcome.failed, ItemOutcome.processed]) := by
  refine ⟨?_, ?_, rfl⟩
  · exact item_failures_isolated_connect_propagates.2.1 failFirstEnv initialState []
      _ (by decide)
  · exact item_failures_isolated_connect_propagates.1 _ initialState _ rfl rfl

theorem processRecording_counters (env : PipelineEnv) (st : RunState)
    (fs : List String) (rec : FileInfo) :
    (processRecording env st fs rec).1.processedCount +
        (processRecording env st fs rec).1.failedCount =
      st.processedCount + st.failedCount +
        (if skipCheck rec.name then 0 else 1) := by
  unfold processRecording
  dsimp only
  repeat' split
  all_goals simp_all
  all_goals omega

theorem runLoop_counters_le (env : PipelineEnv) :
    ∀ (files : List FileInfo) (idx : Nat) (st : RunState) (fs : List String),
      (runLoop env files idx st fs).1.processedCount +
          (runLoop env files idx st fs).1.failedCount ≤
        st.processedCount + st.failedCount + files.length := by
  intro files
  induction files with
  | nil => intro idx st fs; simp [runLoop]
  | cons f rest ih =>
    intro idx st fs
    by_cases hs : env.stopBefore idx = true
    · simp [runLoop, hs]
    · simp only [runLoop, hs, Bool.false_eq_true, if_false]
      have h1 := processRecording_counters env st fs f
      have h2 := ih (idx + 1) (processRecording env st fs f).1
        (processRecording env st fs f).2.1
      rcases hsk : skipCheck f.name
      all_goals rw [hsk] at h1
      all_goals simp at h1
      all_goals simp [List.length_cons]
      all_goals omega

theorem runLoop_counters_eq_nostop (env : PipelineEnv)
    (hstop : ∀ i, env.stopBefore i = false) :
    ∀ (files : List FileInfo) (idx : Nat) (st : RunState) (fs : List String),
      (runLoop env files idx st fs).1.processedCount +
          (runLoop env files idx st fs).1.failedCount =
        st.processedCount + st.failedCount +
          files.countP (fun f => !skipCheck f.name) := by
  intro files
  induction files with
  | nil => intro idx st fs; simp [runLoop]
  | cons f rest ih =>
    intro idx st fs
    simp only [runLoop, hstop idx, Bool.false_eq_true, if_false]
    have h1 := processRecording_counters env st fs f
    have h2 := ih (idx + 1) (processRecording env st fs f).1
      (processRecording env st fs f).2.1
    rw [List.countP_cons]
    rcases hsk : skipCheck f.name
    all_goals rw [hsk] at h1
    all_goals simp [hsk] at h1 ⊢
    all_goals omega

/-- C2 (amended): `processedCount + failedCount` grows by at most one per
item, so from any loop position — in particular at every intermediate point
of a run over a catalog of `K` items, reachable as the loop over a prefix —
the sum never exceeds its starting value plus `K`; and when `start`
completes without an early abort (directories, connection and listing
succeed, no stop requested) the sum equals the number of catalog items that
pass the skip guard, which is exactly `K` when no item is skipped. -/
theorem runState_counter_invariant :
    (∀ (env : PipelineEnv) (files : List FileInfo) (idx : Nat) (st : RunState)
        (fs : List String),
      (runLoop env files idx st fs).1.processedCount +
          (runLoop env files idx st fs).1.failedCount ≤
        st.processedCount + st.failedCount + files.length) ∧
    (∀ (env : PipelineEnv) (files : List FileInfo) (i idx : Nat) (st : RunState)
        (fs : List String),
      (runLoop env (files.take i) idx st fs).1.processedCount +
          (runLoop env (files.take i) idx st fs).1.failedCount ≤
        st.processedCount + st.failedCount + files.length) ∧
    (∀ (env : PipelineEnv) (st : RunState) (files : List FileInfo)
        (res : RunState × List String × List ItemOutcome),
      env.ensureDirs = Except.ok () → env.connect = Except.ok () →
      env.listResult = Except.ok files → (∀ i, env.stopBefore i = false) →
      start env st = Except.ok res →
      res.1.processedCount + res.1.failedCount =
        st.processedCount + st.failedCount +
          files.countP (fun f => !skipCheck f.name) ∧
      res.1.processedCount + res.1.failedCount ≤
        st.processedCount + st.failedCount + files.length ∧
      ((∀ f ∈ files, skipCheck f.name = false) →
        res.1.processedCount + res.1.failedCount =
          st.processedCount + st.failedCount + files.length)) := by
  refine ⟨fun env files idx st fs => runLoop_counters_le env files idx st fs, ?_, ?_⟩
  · intro env files i idx st fs
    have h := runLoop_counters_le env (files.take i) idx st fs
    have hlen : (files.take i).length ≤ files.length := by
      rw [List.length_take]
      omega
    omega
  · intro env st files res h1 h2 h3 hstop hstart
    unfold start at hstart
    rw [h1, h2, h3] at hstart
    dsimp only at hstart
    injection hstart with hres
    subst hres
    dsimp only
    have heq := runLoop_counters_eq_nostop env hstop files 0
      { st with isRunning := true, shouldStop := false } []
    have hle := runLoop_counters_le env files 0
      { st with isRunning := true, shouldStop := false } []
    dsimp only at heq hle
    have hcount : files.countP (fun f => !skipCheck f.name) ≤ files.length :=
      List.countP_le_length _
    refine ⟨heq, by omega, ?_⟩
    intro hall
    have : files.countP (fun f => !skipCheck f.name) = files.length := by
      rw [List.countP_eq_length]
      intro f hf
      simp [hall f hf]
    omega

/-- C2 witness: the two-item run with one failing item ends with
`processedCount + failedCount = 2`, the catalog size. -/
theorem runState_counter_invariant_witness :
    start failFirstEnv initialState =
      Except.ok ((⟨false, false, 1, 1⟩ : RunState),
        ["/downloads/a.wav", "/downloads/b.wav", "/downloads/b_playable.mp3",
         "/downloads/b_playable.txt"],
        [ItemOutcome.failed, ItemOutcome.processed]) ∧
    (⟨false, false, 1, 1⟩ : RunState).processedCount +
      (⟨false, false, 1, 1⟩ : RunState).failedCount = 2 := by
  refine ⟨rfl, ?_⟩
  have h := runState_counter_invariant.2.2 failFirstEnv initialState
    [⟨"a.wav", 1, 10, "/r/a.wav"⟩, ⟨"b.wav", 1, 20, "/r/b.wav"⟩]
    ((⟨false, false, 1, 1⟩ : RunState),
      ["/downloads/a.wav", "/downloads/b.wav", "/downloads/b_playable.mp3",
       "/downloads/b_playable.txt"],
      [ItemOutcome.failed, ItemOutcome.processed])
    rfl rfl rfl (fun _ => rfl) rfl
  exact h.2.2 (by decide)

/-- A run over the one-item catalog `CALL.WAV` — listable because the
catalog's extension filter is case-insensitive — every collaborator
succeeding, no stop requested. -/
def upperEnv : PipelineEnv :=
  { okEnv with listResult := Except.ok [⟨"CALL.WAV", 5, 99, "/r/CALL.WAV"⟩] }

/-- C2 counterexample: this run completes without any abort or stop request
over a catalog of `K = 1` item, yet finishes with
`processedCount + failedCount = 0 ≠ 1`: the orchestrator's skip guard
(`endsWith('.wav')` is case-sensitive) passes the item through untouched. -/
theorem run_completes_with_counter_sum_below_catalog_size :
    start upperEnv initialState =
      Except.ok ((⟨false, false, 0, 0⟩ : RunState), ([] : List String),
        [ItemOutcome.skipped]) ∧
    (⟨false, false, 0, 0⟩ : RunState).processedCount +
      (⟨false, false, 0, 0⟩ : RunState).failedCount ≠ 1 :=
  ⟨rfl, by decide⟩

/-! ## Scratch-artifact lifetime -/

theorem subset_addFile (fs : List String) (p : String) : fs ⊆ addFile fs p := by
  unfold addFile
  split
  · exact List.Subset.refl _
  · exact List.subset_append_left _ _

theorem transcribe_fs_superset (filePath : String) (w : Except Thrown String)
    (d : Except Thrown (Option String)) (fs : List String) :
    fs ⊆ (transcribe filePath w d fs).1 := by
  unfold transcribe
  repeat' split
  all_goals first
    | exact List.Subset.refl _
    | exact subset_addFile _ _

/-- The concrete recording used by the scratch-lifetime scenarios. -/
def wavRec : FileInfo := ⟨"call.wav", 1, 10, "/r/call.wav"⟩

/-- C9 (amended): without a configured object-storage service
`processRecording` never deletes anything — every pre-existing scratch path
survives the item — and in the configured-and-successful case for the
concrete item `call.wav` the three orchestrator-managed files (downloaded
`.wav`, transcoded `_playable.mp3`, transcript `.txt`) are deleted within
the item's window while the transcription service's `_playable.txt` sidecar
survives; when a stage fails before the upload, nothing at all is deleted
(the already-downloaded artifact survives). -/
theorem scratch_cleanup_only_after_spaces_upload :
    (∀ (env : PipelineEnv) (st : RunState) (fs : List String) (rec : FileInfo),
      env.spaces = none → fs ⊆ (processRecording env st fs rec).2.1) ∧
    (∀ (env : PipelineEnv) (st : RunState)
        (u : FileInfo → Except Thrown SpacesUploadResult) (w : String)
        (r : SpacesUploadResult),
      env.downloadDir = "/downloads" → env.spaces = some u →
      env.download wavRec = Except.ok () → env.transcode wavRec = Except.ok () →
      env.whisper wavRec = Except.ok w → env.diarize wavRec = Except.ok none →
      u wavRec = Except.ok r → env.notion wavRec = Except.ok () →
      (processRecording env st [] wavRec).2.1 = ["/downloads/call_playable.txt"]) ∧
    (∀ (env : PipelineEnv) (st : RunState) (e : Thrown),
      env.downloadDir = "/downloads" → env.download wavRec = Except.ok () →
      env.transcode wavRec = Except.error e →
      (processRecording env st [] wavRec).2.1 = ["/downloads/call.wav"]) := by
  refine ⟨?_, ?_, ?_⟩
  · intro env st fs rec hsp
    by_cases hsk : skipCheck rec.name = true
    · simp [processRecording, hsk]
    · rcases hdl : env.download rec with e | u
      · simp [processRecording, hsk, hdl]
      · rcases htc : env.transcode rec with e | u2
        · simp [processRecording, hsk, hdl, htc]
          exact subset_addFile _ _
        · rcases htr : transcribe
              (jsReplaceFirst (pjoin env.downloadDir rec.name) ".wav" "_playable.mp3")
              (env.whisper rec) (env.diarize rec)
              (addFile (addFile fs (pjoin env.downloadDir rec.name))
                (jsReplaceFirst (pjoin env.downloadDir rec.name) ".wav" "_playable.mp3"))
            with ⟨fs3, tr⟩
          have hsub : addFile (addFile fs (pjoin env.downloadDir rec.name))
              (jsReplaceFirst (pjoin env.downloadDir rec.name) ".wav" "_playable.mp3") ⊆
              fs3 := by
            have h := transcribe_fs_superset
              (jsReplaceFirst (pjoin env.downloadDir rec.name) ".wav" "_playable.mp3")
              (env.whisper rec) (env.diarize rec)
              (addFile (addFile fs (pjoin env.downloadDir rec.name))
                (jsReplaceFirst (pjoin env.downloadDir rec.name) ".wav" "_playable.mp3"))
            rw [htr] at h
            exact h
          have hfs : fs ⊆ fs3 :=
            ((subset_addFile _ _).trans (subset_addFile _ _)).trans hsub
          rcases tr with e | txt
          · simp [processRecording, hsk, hdl, htc, htr]
            exact hfs
          · rcases hntn : env.notion rec with e | u3 <;>
              simp [processRecording, hsk, hdl, htc, htr, hsp, hntn] <;>
              exact hfs
  · intro env st u w r hdir hsp hdl htc hw hdz hup hnt
    have hskip : skipCheck wavRec.name = false := by decide
    simp only [processRecording, hdir, hskip, Bool.false_eq_true, if_false,
      hdl, htc, transcribe, hw, hdz, hsp, hup, hnt]
    rfl
  · intro env st e hdir hdl htc
    have hskip : skipCheck wavRec.name = false := by decide
    simp only [processRecording, hdir, hskip, Bool.false_eq_true, if_false,
      hdl, htc]
    rfl

/-- C9 witness: the three parts applied at fully concrete runs. -/
theorem scratch_cleanup_only_after_spaces_upload_witness :
    (["/pre.txt"] : List String) ⊆
      (processRecording { okEnv with listResult := Except.ok [wavRec] }
        initialState ["/pre.txt"] wavRec).2.1 ∧
    (processRecording
        { okEnv with spaces := some (fun _ => Except.ok ⟨"a", "t"⟩) }
        initialState [] wavRec).2.1 = ["/downloads/call_playable.txt"] ∧
    (processRecording
        { okEnv with
          transcode := fun _ => Except.error (Thrown.plainErr "ffmpeg failed") }
        initialState [] wavRec).2.1 = ["/downloads/call.wav"] := by
  refine ⟨?_, ?_, ?_⟩
  · exact scratch_cleanup_only_after_spaces_upload.1 _ initialState _ wavRec rfl
  · exact scratch_cleanup_only_after_spaces_upload.2.1 _ initialState
      (fun _ => Except.ok ⟨"a", "t"⟩) "text" ⟨"a", "t"⟩ rfl rfl rfl rfl rfl rfl rfl rfl
  · exact scratch_cleanup_only_after_spaces_upload.2.2 _ initialState
      (Thrown.plainErr "ffmpeg failed") rfl rfl rfl

/-- The one-item all-succeeding run without object storage, used to refute
C9 as stated. -/
def noSpacesEnv : PipelineEnv :=
  { okEnv with listResult := Except.ok [wavRec] }

/-- C9 counterexample: a successful item in a run without the object-storage
collaborator ends its processing window (and the whole run) with its scratch
artifacts still present — nothing was deleted. -/
theorem scratch_artifacts_survive_item_window :
    start noSpacesEnv initialState =
      Except.ok ((⟨false, false, 1, 0⟩ : RunState),
        ["/downloads/call.wav", "/downloads/call_playable.mp3",
         "/downloads/call_playable.txt"],
        [ItemOutcome.processed]) ∧
    (["/downloads/call.wav", "/downloads/call_playable.mp3",
      "/downloads/call_playable.txt"] : List String) ≠ [] :=
  ⟨rfl, by decide⟩

/-- C8 (code behavior): `TranscriptionService.transcribe` performs no size
or format check before invoking the external calls — for every file path
(oversize or disallowed-format files included) any error it produces is
exactly one of the two OpenAI calls' own errors passed through unchanged,
never a `FILE_TOO_LARGE` or `INVALID_FORMAT` validation error; the unused
validation constructors of the error taxonomy are indeed always
non-retryable. -/
theorem transcribe_no_validation_check :
    (∀ (filePath : String) (w : Except Thrown String)
        (d : Except Thrown (Option String)) (fs : List String) (e : Thrown),
      (transcribe filePath w d fs).2 = Except.error e →
      w = Except.error e ∨ d = Except.error e) ∧
    (∀ filePath size maxSize,
      (TranscriptionError.fileTooLarge filePath size maxSize).isRetryable = false ∧
      (TranscriptionError.fileTooLarge filePath size maxSize).code = "FILE_TOO_LARGE") ∧
    (∀ filePath extension,
      (TranscriptionError.invalidFormat filePath extension).isRetryable = false ∧
      (TranscriptionError.invalidFormat filePath extension).code = "INVALID_FORMAT") := by
  refine ⟨?_, fun _ _ _ => ⟨rfl, rfl⟩, fun _ _ => ⟨rfl, rfl⟩⟩
  intro filePath w d fs e h
  rcases w with e0 | wtext
  · left
    simp only [transcribe] at h
    rw [h]
  · rcases d with e1 | choice
    · right
      simp only [transcribe] at h
      injection h with h1
      rw [h1]
    · simp [transcribe] at h

/-- C8 witness: an oversize, non-audio scratch file raises no validation
error — the provider's own `413` error is what comes back, unchanged. -/
theorem transcribe_no_validation_check_witness :
    (transcribe "/downloads/huge_playable.mp3"
        (Except.error (Thrown.plainErr "413 Payload Too Large")) (Except.ok none)
        []).2 = Except.error (Thrown.plainErr "413 Payload Too Large") ∧
    ((Except.error (Thrown.plainErr "413 Payload Too Large") :
        Except Thrown String) =
          Except.error (Thrown.plainErr "413 Payload Too Large") ∨
      (Except.ok none : Except Thrown (Option String)) =
        Except.error (Thrown.plainErr "413 Payload Too Large")) :=
  ⟨rfl, transcribe_no_validation_check.1 "/downloads/huge_playable.mp3" _ _ [] _ rfl⟩

end Five9
